import Mathlib

/-!
# Verification of the multi-engine search coordination subsystem

Shallow embedding of the Go sources of `go-web-search-mcp`:
the coordinator (`internal/engine/manager.go`), the per-engine paged
search loops (`internal/engine/bing.go`, the Baidu engine file), the
per-item result extraction of the Bing, DuckDuckGo, Baidu (desktop and
mobile) and Sogou engines, and the browser session manager
(`internal/engine/browser.go`).

Modelling conventions:
* Go slices of results become `List SearchResult`; Go `int` becomes `Int`
  where negative values are possible (request limits) and `Nat` for page
  cursors that start at zero and only grow.
* Go `error` values become `Except String` with the exact format strings
  of the source (the `%w`-wrapped cause is appended), because
  `Manager`/`BaiduEngine` dispatch on `strings.Contains` of the message.
* Network, HTML documents and the goquery selector engine are the
  environment: a page fetch is an oracle `Nat → FetchOutcome` giving, per
  page cursor, either a transport-level error message or the body string;
  selector extraction is represented by per-item records holding exactly
  the strings the Go code reads out of the document (element text, `href`
  attributes, ...), with `Option` marking an absent element/attribute.
* `strings.Contains`, `strings.HasPrefix`, `strings.TrimSpace`,
  `strings.ReplaceAll` are modelled on Lean `String`s; Go's byte-indexed
  `len`/slicing is modelled at character granularity (they agree on ASCII
  and the claims are stated at the spec's character granularity).
* Goroutine fan-out in `Manager.Search` appends results and records the
  last error under one mutex; the embedding serialises the fan-in in the
  engine-list order.  Every property proved about it (emptiness, length,
  presence of an error) is invariant under reordering the interleaving.
-/

/-- `SearchResult` from `internal/engine/types.go`. -/
structure SearchResult where
  title : String
  url : String
  description : String
  source : String
  engine : String
deriving Repr, DecidableEq

/-- `SearchRequest` from `internal/engine/types.go`; `limit` is a Go `int`. -/
structure SearchRequest where
  query : String
  limit : Int
  engines : List String
deriving Repr, DecidableEq

/-- Go `strings.Contains s sub`. -/
def goContains (s sub : String) : Bool :=
  decide (sub.toList <:+: s.toList)

/-- Go `strings.HasPrefix s pre`. -/
def goStartsWith (s pre : String) : Bool :=
  pre.toList.isPrefixOf s.toList

/-- Go `strings.HasSuffix s suf` (used only to state properties). -/
def goEndsWith (s suf : String) : Bool :=
  suf.toList.isSuffixOf s.toList

/-- Go `strings.TrimSpace`: strip leading and trailing whitespace. -/
def goTrimSpace (s : String) : String :=
  (((s.toList.dropWhile Char.isWhitespace).reverse.dropWhile
    Char.isWhitespace).reverse).asString

/-- Go `strings.ReplaceAll` on char lists, left-to-right and
non-overlapping; structural recursion on a fuel that the wrapper sets to
the list length, which the scan (consuming at least one character per
step) never exhausts. -/
def goReplaceList : Nat → List Char → List Char → List Char → List Char
  | 0, l, _, _ => l
  | fuel + 1, l, pat, rep =>
    match l with
    | [] => []
    | c :: rest =>
      if pat ≠ [] ∧ pat.isPrefixOf l then
        rep ++ goReplaceList fuel (l.drop pat.length) pat rep
      else c :: goReplaceList fuel rest pat rep

/-- Go `strings.ReplaceAll` on strings. -/
def goReplaceAll (s pat rep : String) : String :=
  (goReplaceList s.toList.length s.toList pat.toList rep.toList).asString

/-- Go `allResults[:limit]` applied only under `len(allResults) > limit`
(as in every engine's truncation step); the sources only reach it with a
non-negative `limit`. -/
def goTruncate (l : List SearchResult) (limit : Int) : List SearchResult :=
  if (l.length : Int) > limit then l.take limit.toNat else l

/-- An engine instance as the coordinator sees it: the behaviour of its
`Search(ctx, query, limit)` method, network included. -/
structure EngineModel where
  search : String → Int → Except String (List SearchResult)

/-- The slice of the config consumed by `Manager.Search`
(`internal/config/config.go`). -/
structure SearchConfig where
  allowedEngines : List String
  defaultEngine : String

/-- `ValidEngines` from `internal/config/config.go`. -/
def validEngines : List String :=
  ["bing", "baidu", "duckduckgo", "google", "sogou",
   "browser_bing", "browser_baidu", "browser_google"]

/-- `Config.IsEngineAllowed`: with an empty allow-list any valid engine
is allowed, otherwise membership in the allow-list decides. -/
def isEngineAllowed (cfg : SearchConfig) (engine : String) : Bool :=
  if cfg.allowedEngines.length = 0 then validEngines.contains engine
  else cfg.allowedEngines.contains engine

/-- One engine's step of the fan-out/fan-in loop of `Manager.Search`
(manager.go lines 104-136): a disallowed or unregistered engine is
skipped; a failing engine overwrites the retained error; a succeeding
engine appends its results. -/
def searchStep (cfg : SearchConfig) (registry : String → Option EngineModel)
    (query : String) (limit : Int)
    (acc : List SearchResult × Option String) (name : String) :
    List SearchResult × Option String :=
  if ¬ isEngineAllowed cfg name then acc
  else
    match registry name with
    | none => acc
    | some eng =>
      match eng.search query limit with
      | .error e => (acc.1, some e)
      | .ok results => (acc.1 ++ results, acc.2)

/-- The fan-in of `Manager.Search`: accumulated results and retained last
error after all engine tasks completed (one serialisation of the
concurrent interleaving). -/
def searchFanIn (cfg : SearchConfig) (registry : String → Option EngineModel)
    (query : String) (limit : Int) (names : List String) :
    List SearchResult × Option String :=
  names.foldl (searchStep cfg registry query limit) ([], none)

/-- `Manager.Search` (manager.go lines 86-145): resolve the engine list,
default the limit to 10, fan out/in, and reduce to one outcome. -/
def managerSearch (cfg : SearchConfig) (registry : String → Option EngineModel)
    (req : SearchRequest) : Except String (List SearchResult) :=
  let names := if req.engines.length = 0 then [cfg.defaultEngine] else req.engines
  let limit := if req.limit ≤ 0 then 10 else req.limit
  let outcome := searchFanIn cfg registry req.query limit names
  match outcome.2 with
  | some e =>
    if outcome.1.length = 0 then
      .error ("all searches failed, last error: " ++ e)
    else .ok outcome.1
  | none => .ok outcome.1

/-! ## HTTP engine paged-search loops -/

/-- One page fetch at the transport level: either an error (connection
failure, non-200 status, body read failure) with the Go error message, or
the response body string. -/
inductive FetchOutcome where
  | fail (msg : String)
  | body (s : String)
deriving Repr

/-- The network as the Bing search loop sees it: the outcome of
`BingEngine.searchPage` per page index (fetch, anti-challenge handling
and parsing included, since the Bing loop only branches on
error/emptiness). -/
def BingPages : Type := Nat → Except String (List SearchResult)

/-- The loop of `BingEngine.Search` (bing.go lines 57-77), instrumented
with the number of `searchPage` calls performed.  Each iteration fetches
page `pn`; an error with prior accumulation or an empty page breaks; the
cursor advances and the loop breaks once `pn > 5`. -/
def bingLoop (pages : BingPages) (limit : Int)
    (acc : List SearchResult) (pn : Nat) :
    Except String (List SearchResult) × Nat :=
  if (acc.length : Int) < limit then
    match pages pn with
    | .error e => (if acc.length > 0 then .ok acc else .error e, 1)
    | .ok results =>
      if results.length = 0 then (.ok acc, 1)
      else
        let acc2 := acc ++ results
        if pn + 1 > 5 then (.ok acc2, 1)
        else
          let rest := bingLoop pages limit acc2 (pn + 1)
          (rest.1, rest.2 + 1)
  else (.ok acc, 0)
termination_by 6 - pn
decreasing_by omega

/-- `BingEngine.Search` (bing.go lines 53-84): run the loop from an empty
accumulation and page 0, then truncate to `limit`. -/
def bingSearch (pages : BingPages) (limit : Int) :
    Except String (List SearchResult) :=
  match (bingLoop pages limit [] 0).1 with
  | .error e => .error e
  | .ok allResults => .ok (goTruncate allResults limit)

/-- Number of page fetches a `BingEngine.Search` call performs. -/
def bingFetches (pages : BingPages) (limit : Int) : Nat :=
  (bingLoop pages limit [] 0).2

/-- The environment of one `BaiduEngine.Search` call (the query is fixed
for the call): per page cursor `pn`, the transport outcome of the desktop
fetch and of the mobile fetch, plus the extraction behaviour of
`parseResults`/`parseMobileResults` on a body (goquery document parsing
practically never fails, so extraction is total on a fetched body). -/
structure BaiduEnv where
  desktop : Nat → FetchOutcome
  parse : String → List SearchResult
  mobile : Nat → FetchOutcome
  parseMobile : String → List SearchResult

/-- The desktop anti-bot markers checked by `BaiduEngine.searchPage`. -/
def baiduChallenge (body : String) : Bool :=
  goContains body "wappass.baidu.com" || goContains body "captcha" ||
  goContains body "百度安全验证" || goContains body "安全验证"

/-- The mobile anti-bot markers checked by `BaiduEngine.searchPageMobile`. -/
def baiduMobileChallenge (body : String) : Bool :=
  goContains body "wappass.baidu.com" || goContains body "captcha" ||
  goContains body "安全验证"

/-- `BaiduEngine.searchPageMobile`: fetch the mobile page; a challenge on
the mobile page is the fixed error below, otherwise the extracted
results. -/
def baiduSearchPageMobile (env : BaiduEnv) (pn : Nat) :
    Except String (List SearchResult) :=
  match env.mobile pn with
  | .fail msg => .error msg
  | .body s =>
    if baiduMobileChallenge s then .error "mobile captcha required"
    else .ok (env.parseMobile s)

/-- `BaiduEngine.searchPage`, instrumented with the number of mobile
fallback fetches it performs: fetch the desktop page; on a challenge, try
the mobile variant once and turn a failing or empty fallback into a
rate-limited error; otherwise extract from the desktop body. -/
def baiduSearchPage (env : BaiduEnv) (pn : Nat) :
    Except String (List SearchResult) × Nat :=
  match env.desktop pn with
  | .fail msg => (.error msg, 0)
  | .body s =>
    if baiduChallenge s then
      match baiduSearchPageMobile env pn with
      | .error e => (.error ("baidu rate limited/captcha required: " ++ e), 1)
      | .ok mobileResults =>
        if mobileResults.length = 0 then
          (.error
            "baidu rate limited: captcha required, please try again later or use a proxy",
           1)
        else (.ok mobileResults, 1)
    else (.ok (env.parse s), 0)

/-- The loop of `BaiduEngine.Search` (Baidu engine file lines 61-95),
instrumented with the number of `searchPage` calls.  A rate-limit/captcha
error (recognised by substring match on the message) or any other error
breaks with the accumulation when non-empty and aborts otherwise; an
empty page breaks; the cursor advances by 10 and the loop breaks once
`pn > 40`. -/
def baiduLoop (env : BaiduEnv) (limit : Int)
    (acc : List SearchResult) (pn : Nat) :
    Except String (List SearchResult) × Nat :=
  if (acc.length : Int) < limit then
    match (baiduSearchPage env pn).1 with
    | .error e =>
      (if goContains e "captcha" || goContains e "rate limited" then
        if acc.length > 0 then .ok acc
        else .error ("baidu rate limited: " ++ e)
      else if acc.length > 0 then .ok acc
      else .error e, 1)
    | .ok results =>
      if results.length = 0 then (.ok acc, 1)
      else
        let acc2 := acc ++ results
        if pn + 10 > 40 then (.ok acc2, 1)
        else
          let rest := baiduLoop env limit acc2 (pn + 10)
          (rest.1, rest.2 + 1)
  else (.ok acc, 0)
termination_by 50 - pn
decreasing_by omega

/-- `BaiduEngine.Search` (Baidu engine file lines 52-102): warm-up (its
failure is only logged), run the loop from an empty accumulation and
cursor 0, truncate to `limit`. -/
def baiduSearch (env : BaiduEnv) (limit : Int) :
    Except String (List SearchResult) :=
  match (baiduLoop env limit [] 0).1 with
  | .error e => .error e
  | .ok allResults => .ok (goTruncate allResults limit)

/-- Number of desktop page fetches a `BaiduEngine.Search` call performs. -/
def baiduFetches (env : BaiduEnv) (limit : Int) : Nat :=
  (baiduLoop env limit [] 0).2

/-! ## Per-item result extraction

Each record holds exactly the strings the Go callback reads from one
result node of the document: `none` marks an absent element (or, where
the Go code checks the second return of `Attr`, an absent attribute);
where the Go code uses `href, _ := sel.Attr("href")`, an absent attribute
is the empty string and only the element's absence is `none`. -/

/-- Chain of description selectors as in the Go loops: the first
candidate whose element exists and whose trimmed text is non-empty wins,
otherwise the description stays empty. -/
def firstNonEmptyTrimmed : List (Option String) → String
  | [] => ""
  | none :: rest => firstNonEmptyTrimmed rest
  | some t :: rest =>
    let d := goTrimSpace t
    if d ≠ "" then d else firstNonEmptyTrimmed rest

/-- The description cap applied by `BaiduEngine.parseResultItem` and
`SogouEngine.parseResultItem`. -/
def goTruncDesc (d : String) : String :=
  if d.length > 500 then (d.toList.take 500).asString ++ "..." else d

/-- Go `strings.TrimPrefix`. -/
def goTrimPre (s pre : String) : String :=
  if goStartsWith s pre then (s.toList.drop pre.length).asString else s

/-- One `li.b_algo` node as `BingEngine.parseResults` reads it:
`descCandidates` lists, in order, the first-match texts of
`.b_caption p`, `p`, `.b_algoSlug`. -/
structure BingItem where
  titleText : Option String
  linkHref : Option String
  descCandidates : List (Option String)
  citeText : Option String
deriving Repr

/-- The per-item body of `BingEngine.parseResults` (bing.go lines
162-199): require an `h2`, an `h2 a` with an `href` of prefix "http";
no description truncation is applied. -/
def bingParseItem (it : BingItem) : Option SearchResult :=
  match it.titleText, it.linkHref with
  | some titleText, some href =>
    if ¬ goStartsWith href "http" then none
    else some
      { title := goTrimSpace titleText
        url := href
        description := firstNonEmptyTrimmed it.descCandidates
        source := (match it.citeText with | some c => goTrimSpace c | none => "")
        engine := "bing" }
  | _, _ => none

/-- One `.result` node as `DuckDuckGoEngine.parseResults` reads it. -/
structure DDGItem where
  titleText : Option String
  linkHref : Option String
  snippetText : Option String
  urlText : Option String
deriving Repr

/-- The per-item body of `DuckDuckGoEngine.parseResults` (lines 104-155
of the DuckDuckGo engine file).  `uddg href` is the environment for
`url.Parse("https:" + href).Query().Get("uddg")` (`none` when the parse
errors, in which case the href is kept unchanged). -/
def ddgParseItem (uddg : String → Option String) (it : DDGItem) :
    Option SearchResult :=
  match it.titleText, it.linkHref with
  | some titleText, some href0 =>
    let href := if goStartsWith href0 "//duckduckgo.com/l/" then
        match uddg href0 with
        | some v => v
        | none => href0
      else href0
    if href = "" then none
    else if ¬ goStartsWith href "http" then none
    else some
      { title := goTrimSpace titleText
        url := href
        description := (match it.snippetText with | some t => goTrimSpace t | none => "")
        source := (match it.urlText with | some t => goTrimSpace t | none => "")
        engine := "duckduckgo" }
  | _, _ => none

/-- `BaiduEngine.isInternalLink`: only the first two internal-domain
patterns are matched (`internalDomains[:2]`), then the ad keywords on
the title. -/
def baiduIsInternalLink (href title : String) : Bool :=
  goContains href "baidu.com/s?" || goContains href "baidu.com/baidu.php" ||
  goContains title "广告" || goContains title "推广" || goContains title "想在此推广"

/-- One child of `#content_left` as `BaiduEngine.parseResultItem` reads
it.  `ariaLabel` is `none` when `.c-font-normal.c-color-text` is absent
or carries no `aria-label` attribute. -/
structure BaiduItem where
  h3Text : Option String
  h3Link : Option String
  anyLink : Option String
  ariaLabel : Option String
  cosRowText : Option String
  abstractText : Option String
  sourceText : Option String
deriving Repr

/-- `BaiduEngine.parseResultItem` (Baidu engine file lines 241-325).
`hostOf href` is the environment for `url.Parse(href).Host` (`none` when
the parse errors, leaving the source empty). -/
def baiduParseResultItem (hostOf : String → Option String) (it : BaiduItem) :
    Option SearchResult :=
  match it.h3Text with
  | none => none
  | some h3Text =>
    let title := goTrimSpace h3Text
    if title = "" then none
    else
      let href := match it.h3Link with
        | some h => h
        | none => match it.anyLink with
          | some h => h
          | none => ""
      if href = "" then none
      else if ¬ goStartsWith href "http" then none
      else if baiduIsInternalLink href title then none
      else
        let description := match it.ariaLabel with
          | some a => if a ≠ "" then goTrimSpace a else ""
          | none => ""
        let description := if description = "" then
            (match it.cosRowText with | some t => goTrimSpace t | none => "")
          else description
        let description := if description = "" then
            (match it.abstractText with | some t => goTrimSpace t | none => "")
          else description
        let source := match it.sourceText with
          | some t => goTrimSpace t
          | none => ""
        let source := if source = "" then
            (match hostOf href with | some h => h | none => "")
          else source
        some
          { title := title
            url := href
            description := goTruncDesc description
            source := source
            engine := "baidu" }

/-- One mobile result node (`.c-result, .result, [data-log]`) as
`BaiduEngine.parseMobileResults` reads it. -/
structure BaiduMobileItem where
  titleText : Option String
  linkHref : Option String
  descText : Option String
  sourceText : Option String
deriving Repr

/-- The per-item body of `BaiduEngine.parseMobileResults` (Baidu engine
file lines 415-476): root-relative links are completed against
`https://m.baidu.com`, the "http" prefix is re-checked after completion,
and no description truncation is applied. -/
def baiduParseMobileItem (hostOf : String → Option String)
    (it : BaiduMobileItem) : Option SearchResult :=
  let title := match it.titleText with
    | some t => goTrimSpace t
    | none => ""
  if title = "" then none
  else
    let href := match it.linkHref with
      | some h => h
      | none => ""
    let href := if href ≠ "" ∧ ¬ goStartsWith href "http" then
        if goStartsWith href "/" then "https://m.baidu.com" ++ href else href
      else href
    if href = "" then none
    else if ¬ goStartsWith href "http" then none
    else if baiduIsInternalLink href title then none
    else
      let description := match it.descText with
        | some t => goTrimSpace t
        | none => ""
      let source := match it.sourceText with
        | some t => goTrimSpace t
        | none => ""
      let source := if source = "" then
          (match hostOf href with | some h => h | none => "")
        else source
      some
        { title := title
          url := href
          description := description
          source := source
          engine := "baidu" }

/-- `SogouEngine.isInternalLink`. -/
def sogouIsInternalLink (href title : String) : Bool :=
  goContains href "sogou.com/web/searchList" || goContains href "sogou.com/link?" ||
  goContains href "sogou.com/tx?" || goContains href "sogou.com/v?" ||
  goContains href "antispider" ||
  goContains title "广告" || goContains title "推广"

/-- The title-selector loop of `SogouEngine.parseResultItem` (sogou.go
lines 184-193): each candidate is the first match of one selector
(`none` when the selector matches nothing, otherwise its text and its
`href` attribute, the attribute defaulting to empty).  `title` and
`href` keep the values of the last matching selector; the loop stops
when both are non-empty. -/
def sogouTitleLink : List (Option (String × String)) → String × String →
    String × String
  | [], acc => acc
  | none :: rest, acc => sogouTitleLink rest acc
  | some (t, h) :: rest, _ =>
    let title := goTrimSpace t
    if title ≠ "" ∧ h ≠ "" then (title, h)
    else sogouTitleLink rest (title, h)

/-- One `.vrResult` node as `SogouEngine.parseResultItem` reads it.
`titleCandidates` follows the five title selectors in order;
`resultLink` is the first `a.resultLink`; `descCandidates` follows the
four description selectors; `citeText` is `.citeurl span`. -/
structure SogouItem where
  titleCandidates : List (Option (String × String))
  resultLink : Option (String × String)
  descCandidates : List (Option String)
  citeText : Option String
deriving Repr

/-- `SogouEngine.parseResultItem` (sogou.go lines 170-279).
`realURLOf href` is the environment for `extractRealURL` (url-parameter
unwrapping of sogou redirect links) and `hostOf` for `url.Parse(.).Host`.
Only links with prefix "/" or "./" are completed to absolute sogou URLs;
any other href is emitted verbatim. -/
def sogouParseResultItem (realURLOf : String → String)
    (hostOf : String → Option String) (it : SogouItem) : Option SearchResult :=
  let tl := sogouTitleLink it.titleCandidates ("", "")
  let tl := if tl.1 = "" ∨ tl.2 = "" then
      match it.resultLink with
      | some (t, h) => (goTrimSpace t, h)
      | none => tl
    else tl
  let title := tl.1
  let href := tl.2
  if title = "" ∨ href = "" then none
  else
    let href := if ¬ goStartsWith href "http" then
        if goStartsWith href "/" then "https://wap.sogou.com" ++ href
        else if goStartsWith href "./" then
          "https://wap.sogou.com/web/" ++ goTrimPre href "./"
        else href
      else href
    if sogouIsInternalLink href title then none
    else
      let description := firstNonEmptyTrimmed it.descCandidates
      let source := match it.citeText with
        | some t => goTrimSpace t
        | none => ""
      let source := if source = "" then
          (let realURL := realURLOf href
           if realURL ≠ "" then
             match hostOf realURL with
             | some h => h
             | none => ""
           else "")
        else source
      let title := goReplaceAll (goReplaceAll title "<em>" "") "</em>" ""
      let description := goReplaceAll (goReplaceAll description "<em>" "") "</em>" ""
      some
        { title := title
          url := href
          description := goTruncDesc description
          source := source
          engine := "sogou" }

/-! ## Browser session manager (`internal/engine/browser.go`)

`Initialize`, `NewTabContext`, `Close` and `IsInitialized` each hold the
manager's `sync.Mutex` for their whole body, so concurrent calls execute
serialised; the models below run call sequences in order.  `sync.Mutex`
is not reentrant: a goroutine acquiring it while already holding it
blocks forever, which the lock-aware model makes explicit. -/

/-- The fields of `BrowserManager` the control flow reads or writes
(the chromedp context handles are owned by the environment). -/
structure BrowserState where
  initialized : Bool
  proxyURL : String
  headless : Bool
deriving Repr, DecidableEq

/-- The process environment of an initialization attempt:
`findChromePath` (`none` models the empty result of an unsuccessful
path search) and the warm-up `chromedp.Run` outcome. -/
structure BrowserEnv where
  chromePath : Option String
  run : Except String Unit

/-- The body of `BrowserManager.Initialize` (browser.go lines 81-146),
executed with the mutex held: no-op when already initialized, otherwise
record the settings, fail when no Chrome executable is found, fail when
the warm-up run fails, and mark initialized on success. -/
def browserInitialize (env : BrowserEnv) (st : BrowserState)
    (proxyURL : String) (headless : Bool) :
    BrowserState × Except String Unit :=
  if st.initialized then (st, .ok ())
  else
    let st2 := { st with proxyURL := proxyURL, headless := headless }
    match env.chromePath with
    | none =>
      (st2, .error "Chrome/Chromium not found. Please install Chrome browser")
    | some _ =>
      match env.run with
      | .error e => (st2, .error ("failed to start browser: " ++ e))
      | .ok _ => ({ st2 with initialized := true }, .ok ())

/-- A serialised sequence of `Initialize(proxy, headless)` calls (the
order in which concurrent callers pass the mutex), returning the final
state, each caller's outcome in order, and how many calls entered the
initialization body (found `initialized == false`). -/
def runInitCalls (env : BrowserEnv) :
    BrowserState → List (String × Bool) →
    BrowserState × List (Except String Unit) × Nat
  | st, [] => (st, [], 0)
  | st, (p, h) :: rest =>
    let attempted := if st.initialized then 0 else 1
    let r := browserInitialize env st p h
    let next := runInitCalls env r.1 rest
    (next.1, r.2 :: next.2.1, attempted + next.2.2)

/-- Result of a `NewTabContext` call in the lock-aware model: the
returned context/cancel pair, or the goroutine blocking forever on a
second acquisition of the non-reentrant mutex. -/
inductive TabOutcome where
  | background
  | tab (timeoutMs : Nat)
  | deadlock
deriving Repr, DecidableEq

/-- `BrowserManager.NewTabContext` (browser.go lines 149-172): the body
runs with `bm.mu` held; when the manager is uninitialized it calls
`bm.Initialize("", true)`, whose first statement acquires `bm.mu` again
- `sync.Mutex` is not reentrant, so that call never returns.  When
initialized, a tab context with the requested timeout is returned. -/
def newTabContext (_env : BrowserEnv) (st : BrowserState) (timeoutMs : Nat) :
    BrowserState × TabOutcome :=
  if ¬ st.initialized then
    (st, .deadlock)
  else (st, .tab timeoutMs)

/-- What NewTabContext's source text would do if the nested
`Initialize` call did not re-acquire the held mutex: initialize with no
proxy and headless mode, and fall back to a plain background context
with a no-op cancel when that fails. -/
def newTabContextIntended (env : BrowserEnv) (st : BrowserState)
    (timeoutMs : Nat) : BrowserState × TabOutcome :=
  if ¬ st.initialized then
    let r := browserInitialize env st "" true
    match r.2 with
    | .error _ => (r.1, .background)
    | .ok _ => (r.1, .tab timeoutMs)
  else (st, .tab timeoutMs)

/-! ## Helper lemmas -/

theorem goTruncate_length_le_limit (l : List SearchResult) (limit : Int)
    (h : 0 ≤ limit) : ((goTruncate l limit).length : Int) ≤ limit := by
  unfold goTruncate
  split
  · rename_i hgt
    have : (l.take limit.toNat).length = min limit.toNat l.length :=
      List.length_take _ _
    rw [this]
    omega
  · omega

theorem goTruncate_length_le_self (l : List SearchResult) (limit : Int) :
    (goTruncate l limit).length ≤ l.length := by
  unfold goTruncate
  split
  · simp [List.length_take_le]
  · exact le_rfl

/-- C2: for every engine search call with positive limit that returns
without error, the returned sequence has at most `limit` results - the
Bing and Baidu search loops truncate their accumulation to `limit`
before returning (bing.go lines 79-81, Baidu engine file lines 97-99),
so each engine enforces its own limit on its contribution. -/
theorem engine_limit_enforced (limit : Int) (hpos : 0 < limit) :
    (∀ (pages : BingPages) (rs : List SearchResult),
      bingSearch pages limit = .ok rs → (rs.length : Int) ≤ limit) ∧
    (∀ (env : BaiduEnv) (rs : List SearchResult),
      baiduSearch env limit = .ok rs → (rs.length : Int) ≤ limit) := by
  constructor
  · intro pages rs h
    unfold bingSearch at h
    rcases hl : (bingLoop pages limit [] 0).1 with e | allResults
    · rw [hl] at h; exact absurd h (by simp)
    · rw [hl] at h
      have : rs = goTruncate allResults limit := by
        simpa using h.symm
      rw [this]
      exact goTruncate_length_le_limit _ _ (le_of_lt hpos)
  · intro env rs h
    unfold baiduSearch at h
    rcases hl : (baiduLoop env limit [] 0).1 with e | allResults
    · rw [hl] at h; exact absurd h (by simp)
    · rw [hl] at h
      have : rs = goTruncate allResults limit := by
        simpa using h.symm
      rw [this]
      exact goTruncate_length_le_limit _ _ (le_of_lt hpos)

/-- A concrete well-formed result used by witnesses. -/
def wResult : SearchResult :=
  { title := "t", url := "http://example.com", description := "",
    source := "example.com", engine := "bing" }

/-- A network on which every Bing page carries two results. -/
def wPages : BingPages := fun _ => .ok [wResult, wResult]

theorem wPages_eval : bingSearch wPages 3 = .ok [wResult, wResult, wResult] := by
  simp [bingSearch, bingLoop, wPages, goTruncate]

/-- Witness for C2: a Bing search limited to 3 against pages of 2
results each returns exactly 3 results, and the theorem bounds them. -/
theorem engine_limit_enforced_witness :
    (([wResult, wResult, wResult] : List SearchResult).length : Int) ≤ 3 :=
  (engine_limit_enforced 3 (by decide)).1 wPages _ wPages_eval

/-- The engine list `Manager.Search` resolves (manager.go lines 88-91). -/
def effectiveNames (cfg : SearchConfig) (req : SearchRequest) : List String :=
  if req.engines.length = 0 then [cfg.defaultEngine] else req.engines

/-- The limit `Manager.Search` passes to engines (manager.go lines 94-97). -/
def effLimit (req : SearchRequest) : Int :=
  if req.limit ≤ 0 then 10 else req.limit

/-- The skip condition of the fan-out loop: an engine is queried exactly
when it is allowed and registered. -/
def isQueried (cfg : SearchConfig) (registry : String → Option EngineModel)
    (name : String) : Bool :=
  isEngineAllowed cfg name && (registry name).isSome

theorem managerSearch_def (cfg : SearchConfig)
    (registry : String → Option EngineModel) (req : SearchRequest) :
    managerSearch cfg registry req =
      match (searchFanIn cfg registry req.query (effLimit req)
          (effectiveNames cfg req)).2 with
      | some e =>
        if (searchFanIn cfg registry req.query (effLimit req)
            (effectiveNames cfg req)).1.length = 0 then
          .error ("all searches failed, last error: " ++ e)
        else .ok (searchFanIn cfg registry req.query (effLimit req)
            (effectiveNames cfg req)).1
      | none => .ok (searchFanIn cfg registry req.query (effLimit req)
          (effectiveNames cfg req)).1 := rfl

theorem searchStep_skip (cfg : SearchConfig)
    (registry : String → Option EngineModel) (query : String) (limit : Int)
    (acc : List SearchResult × Option String) (name : String)
    (h : isQueried cfg registry name = false) :
    searchStep cfg registry query limit acc name = acc := by
  unfold isQueried at h
  unfold searchStep
  rcases hr : registry name with _ | eng
  · simp [hr]
  · simp [hr] at h
    simp [h]

theorem foldl_searchStep_filter (cfg : SearchConfig)
    (registry : String → Option EngineModel) (query : String) (limit : Int) :
    ∀ (names : List String) (acc : List SearchResult × Option String),
      names.foldl (searchStep cfg registry query limit) acc =
      (names.filter (isQueried cfg registry)).foldl
        (searchStep cfg registry query limit) acc := by
  intro names
  induction names with
  | nil => intro acc; rfl
  | cons name rest ih =>
    intro acc
    by_cases hq : isQueried cfg registry name = true
    · simp [List.filter_cons, hq, List.foldl_cons, ih]
    · have hq2 : isQueried cfg registry name = false := by
        simpa using hq
      simp [List.filter_cons, hq2, List.foldl_cons,
        searchStep_skip cfg registry query limit acc name hq2, ih]

/-- C1: `Manager.Search` reduces per-engine outcomes as follows - a
non-empty combined sequence is returned with no error regardless of
engine failures; an empty combined sequence with a retained engine error
yields a failure wrapping that error; and when no engine passed the
allow-list/registry checks, an empty sequence is returned with no
error. -/
theorem coordinator_outcome (cfg : SearchConfig)
    (registry : String → Option EngineModel) (req : SearchRequest) :
    ((searchFanIn cfg registry req.query (effLimit req)
        (effectiveNames cfg req)).1 ≠ [] →
      managerSearch cfg registry req =
        .ok (searchFanIn cfg registry req.query (effLimit req)
          (effectiveNames cfg req)).1) ∧
    (∀ e, (searchFanIn cfg registry req.query (effLimit req)
        (effectiveNames cfg req)).1 = [] →
      (searchFanIn cfg registry req.query (effLimit req)
        (effectiveNames cfg req)).2 = some e →
      managerSearch cfg registry req =
        .error ("all searches failed, last error: " ++ e)) ∧
    ((effectiveNames cfg req).filter (isQueried cfg registry) = [] →
      managerSearch cfg registry req = .ok []) := by
  refine ⟨?_, ?_, ?_⟩
  · intro h
    rw [managerSearch_def]
    rcases h2 : (searchFanIn cfg registry req.query (effLimit req)
        (effectiveNames cfg req)).2 with _ | e
    · simp
    · have hlen : (searchFanIn cfg registry req.query (effLimit req)
          (effectiveNames cfg req)).1.length ≠ 0 := by
        simpa using h
      simp [hlen]
  · intro e h1 h2
    rw [managerSearch_def, h2]
    simp [h1]
  · intro hq
    have hfan : searchFanIn cfg registry req.query (effLimit req)
        (effectiveNames cfg req) = ([], none) := by
      unfold searchFanIn
      rw [foldl_searchStep_filter, hq]
      rfl
    rw [managerSearch_def, hfan]

/-- A registry with a single registered engine whose search always
fails. -/
def failRegistry : String → Option EngineModel := fun name =>
  if name = "bing" then some ⟨fun _ _ => .error "request failed: boom"⟩ else none

/-- A config with an empty allow-list and default engine "bing". -/
def openCfg : SearchConfig := { allowedEngines := [], defaultEngine := "bing" }

/-- Witness for C1: with one queried engine that fails and an empty
combined sequence, the coordinator surfaces the wrapped failure. -/
theorem coordinator_outcome_witness :
    managerSearch openCfg failRegistry { query := "q", limit := 1, engines := ["bing"] } =
      .error "all searches failed, last error: request failed: boom" :=
  (coordinator_outcome openCfg failRegistry
    { query := "q", limit := 1, engines := ["bing"] }).2.1
    "request failed: boom" rfl rfl

theorem effLimit_pos (req : SearchRequest) : 0 < effLimit req := by
  unfold effLimit
  split <;> omega

theorem foldl_searchStep_length_bound (cfg : SearchConfig)
    (registry : String → Option EngineModel) (query : String) (limit : Int)
    (L : Int) (hL : 0 ≤ L)
    (hb : ∀ name eng rs, registry name = some eng →
      eng.search query limit = .ok rs → (rs.length : Int) ≤ L) :
    ∀ (names : List String) (acc : List SearchResult × Option String),
      (((names.foldl (searchStep cfg registry query limit) acc).1.length : Int)) ≤
        acc.1.length + (names.filter (isQueried cfg registry)).length * L := by
  intro names
  induction names with
  | nil => intro acc; simp
  | cons name rest ih =>
    intro acc
    by_cases hq : isQueried cfg registry name = true
    · have hal : isEngineAllowed cfg name = true := by
        unfold isQueried at hq
        exact (Bool.and_eq_true _ _ |>.mp hq).1
      have hsome : (registry name).isSome = true := by
        unfold isQueried at hq
        exact (Bool.and_eq_true _ _ |>.mp hq).2
      rcases hreg : registry name with _ | eng
      · rw [hreg] at hsome; simp at hsome
      · rw [List.foldl_cons]
        have hstep : searchStep cfg registry query limit acc name =
            (match eng.search query limit with
             | .error e => (acc.1, some e)
             | .ok results => (acc.1 ++ results, acc.2)) := by
          unfold searchStep
          rw [hreg]
          simp [hal]
        have hfl : ((name :: rest).filter (isQueried cfg registry)).length =
            (rest.filter (isQueried cfg registry)).length + 1 := by
          simp [List.filter_cons, hq]
        rcases hs : eng.search query limit with e | results
        · rw [hs] at hstep
          have hih := ih (acc.1, some e)
          rw [hstep, hfl]
          push_cast
          push_cast at hih
          nlinarith
        · rw [hs] at hstep
          have hrb : (results.length : Int) ≤ L := hb name eng results hreg hs
          have hih := ih (acc.1 ++ results, acc.2)
          rw [hstep, hfl]
          simp only [List.length_append] at hih
          push_cast
          push_cast at hih
          nlinarith
    · have hq2 : isQueried cfg registry name = false := by simpa using hq
      rw [List.foldl_cons, searchStep_skip cfg registry query limit acc name hq2]
      simp only [List.filter_cons, hq2, Bool.false_eq_true, if_false]
      exact ih acc

/-- A second concrete result, attributed to the Baidu engine. -/
def wResult2 : SearchResult :=
  { title := "t2", url := "http://example.org", description := "",
    source := "example.org", engine := "baidu" }

/-- A registry with two registered engines, each returning one result. -/
def twoRegistry : String → Option EngineModel := fun name =>
  if name = "bing" then some ⟨fun _ _ => .ok [wResult]⟩
  else if name = "baidu" then some ⟨fun _ _ => .ok [wResult2]⟩
  else none

/-- Counterexample to C3: a request with `limit = 1` naming two engines
returns 2 results - `Manager.Search` applies no overall limit after
fanning in (manager.go has no truncation step after the `wg.Wait()`). -/
theorem coordinator_no_overall_limit_cex :
    managerSearch openCfg twoRegistry
        { query := "q", limit := 1, engines := ["bing", "baidu"] } =
      .ok [wResult, wResult2] ∧
    ¬ ((([wResult, wResult2] : List SearchResult).length : Int) ≤ 1) := by
  constructor
  · rfl
  · decide

/-- C3 amended: the combined sequence returned by `Manager.Search` is
bounded by the number of queried engines times the effective limit
(given that each registered engine honours the limit, which the engines
of this repository do, see `engine_limit_enforced`); the coordinator
itself applies no overall truncation, so with several engines the
combined length may exceed the request limit. -/
theorem coordinator_combined_bound (cfg : SearchConfig)
    (registry : String → Option EngineModel) (req : SearchRequest)
    (hb : ∀ name eng rs, registry name = some eng →
      eng.search req.query (effLimit req) = .ok rs →
      (rs.length : Int) ≤ effLimit req) :
    ∀ rs, managerSearch cfg registry req = .ok rs →
      (rs.length : Int) ≤
        ((effectiveNames cfg req).filter (isQueried cfg registry)).length *
          effLimit req := by
  intro rs hok
  have hfan : rs = (searchFanIn cfg registry req.query (effLimit req)
      (effectiveNames cfg req)).1 := by
    rw [managerSearch_def] at hok
    rcases h2 : (searchFanIn cfg registry req.query (effLimit req)
        (effectiveNames cfg req)).2 with _ | e
    · rw [h2] at hok
      simpa using hok.symm
    · rw [h2] at hok
      by_cases hz : (searchFanIn cfg registry req.query (effLimit req)
          (effectiveNames cfg req)).1.length = 0
      · simp [hz] at hok
      · simp only [hz, if_false] at hok
        simpa using hok.symm
  have hbound := foldl_searchStep_length_bound cfg registry req.query
    (effLimit req) (effLimit req) (le_of_lt (effLimit_pos req)) hb
    (effectiveNames cfg req) ([], none)
  rw [hfan]
  unfold searchFanIn
  simpa using hbound

/-- Witness for C3 amended: the two-engine request of the
counterexample stays within 2 engines x limit 1. -/
theorem coordinator_combined_bound_witness :
    (([wResult, wResult2] : List SearchResult).length : Int) ≤
      ((effectiveNames openCfg
          { query := "q", limit := 1, engines := ["bing", "baidu"] }).filter
        (isQueried openCfg twoRegistry)).length *
        effLimit { query := "q", limit := 1, engines := ["bing", "baidu"] } :=
  coordinator_combined_bound openCfg twoRegistry
    { query := "q", limit := 1, engines := ["bing", "baidu"] }
    (by
      intro name eng rs h1 h2
      unfold twoRegistry at h1
      split_ifs at h1
      · cases h1
        have hr : rs = [wResult] := by simpa using h2.symm
        rw [hr]
        decide
      · cases h1
        have hr : rs = [wResult2] := by simpa using h2.symm
        rw [hr]
        decide)
    [wResult, wResult2] rfl

theorem bingLoop_count_le (pages : BingPages) (limit : Int) :
    ∀ (acc : List SearchResult) (pn : Nat), pn ≤ 5 →
      (bingLoop pages limit acc pn).2 ≤ 6 - pn := by
  intro acc pn
  induction acc, pn using bingLoop.induct pages limit with
  | case1 acc pn hlt e hp =>
    intro h
    rw [bingLoop]
    simp only [hlt, if_true, hp]
    omega
  | case2 acc pn hlt results hp hz =>
    intro h
    rw [bingLoop]
    simp only [hlt, if_true, hp, hz, if_true]
    omega
  | case3 acc pn hlt results hp hz hgt =>
    intro h
    rw [bingLoop]
    simp only [hlt, if_true, hp, hz, hgt, if_false]
    omega
  | case4 acc pn hlt results hp hz acc2 hgt ih =>
    intro h
    have h1 : pn + 1 ≤ 5 := by omega
    have h2 : (bingLoop pages limit (acc ++ results) (pn + 1)).2 ≤ 6 - (pn + 1) :=
      ih h1
    rw [bingLoop]
    simp only [hlt, if_true, hp, hz, hgt, if_false]
    omega
  | case5 acc pn hnlt =>
    intro h
    rw [bingLoop]
    simp only [hnlt, if_false]
    omega

theorem bingLoop_ok_length (pages : BingPages) (limit : Int) (P : Nat)
    (hb : ∀ pn rs, pages pn = .ok rs → rs.length ≤ P) :
    ∀ (acc : List SearchResult) (pn : Nat) (rs : List SearchResult),
      (bingLoop pages limit acc pn).1 = .ok rs →
      rs.length ≤ acc.length + (bingLoop pages limit acc pn).2 * P := by
  intro acc pn
  induction acc, pn using bingLoop.induct pages limit with
  | case1 acc pn hlt e hp =>
    intro rs hok
    rw [bingLoop] at hok ⊢
    simp only [hlt, if_true, hp] at hok ⊢
    by_cases ha : acc.length > 0
    · simp only [ha, if_true] at hok
      have hr : rs = acc := by simpa using hok.symm
      subst hr
      omega
    · simp only [ha, if_false] at hok
      exact absurd hok (by simp)
  | case2 acc pn hlt results hp hz =>
    intro rs hok
    rw [bingLoop] at hok ⊢
    simp only [hlt, if_true, hp, hz, if_true] at hok ⊢
    have hr : rs = acc := by simpa using hok.symm
    subst hr
    omega
  | case3 acc pn hlt results hp hz hgt =>
    intro rs hok
    rw [bingLoop] at hok ⊢
    simp only [hlt, if_true, hp, hz, hgt, if_false] at hok ⊢
    have hr : rs = acc ++ results := by simpa using hok.symm
    have hlen : results.length ≤ P := hb pn results hp
    subst hr
    simp only [List.length_append]
    omega
  | case4 acc pn hlt results hp hz acc2 hgt ih =>
    intro rs hok
    rw [bingLoop] at hok ⊢
    simp only [hlt, if_true, hp, hz, hgt, if_false] at hok ⊢
    have hlen : results.length ≤ P := hb pn results hp
    have h2 : rs.length ≤ (acc ++ results).length +
        (bingLoop pages limit (acc ++ results) (pn + 1)).2 * P := ih rs hok
    simp only [List.length_append] at h2
    have hmul : ((bingLoop pages limit (acc ++ results) (pn + 1)).2 + 1) * P =
        (bingLoop pages limit (acc ++ results) (pn + 1)).2 * P + P := by ring
    show rs.length ≤ acc.length +
        ((bingLoop pages limit (acc ++ results) (pn + 1)).2 + 1) * P
    omega
  | case5 acc pn hnlt =>
    intro rs hok
    rw [bingLoop] at hok ⊢
    simp only [hnlt, if_false] at hok ⊢
    have hr : rs = acc := by simpa using hok.symm
    subst hr
    omega

theorem baiduLoop_count_le (env : BaiduEnv) (limit : Int) :
    ∀ (acc : List SearchResult) (pn : Nat), pn ≤ 40 →
      10 * (baiduLoop env limit acc pn).2 ≤ 50 - pn := by
  intro acc pn
  induction acc, pn using baiduLoop.induct env limit with
  | case1 acc pn hlt e hp =>
    intro h
    rw [baiduLoop]
    simp only [hlt, if_true, hp]
    omega
  | case2 acc pn hlt results hp hz =>
    intro h
    rw [baiduLoop]
    simp only [hlt, if_true, hp, hz, if_true]
    omega
  | case3 acc pn hlt results hp hz hgt =>
    intro h
    rw [baiduLoop]
    simp only [hlt, if_true, hp, hz, hgt, if_false]
    omega
  | case4 acc pn hlt results hp hz acc2 hgt ih =>
    intro h
    have h1 : pn + 10 ≤ 40 := by omega
    have h2 : 10 * (baiduLoop env limit (acc ++ results) (pn + 10)).2 ≤
        50 - (pn + 10) := ih h1
    rw [baiduLoop]
    simp only [hlt, if_true, hp, hz, hgt, if_false]
    omega
  | case5 acc pn hnlt =>
    intro h
    rw [baiduLoop]
    simp only [hnlt, if_false]
    omega

theorem baiduLoop_ok_length (env : BaiduEnv) (limit : Int) (P : Nat)
    (hb : ∀ pn rs, (baiduSearchPage env pn).1 = .ok rs → rs.length ≤ P) :
    ∀ (acc : List SearchResult) (pn : Nat) (rs : List SearchResult),
      (baiduLoop env limit acc pn).1 = .ok rs →
      rs.length ≤ acc.length + (baiduLoop env limit acc pn).2 * P := by
  intro acc pn
  induction acc, pn using baiduLoop.induct env limit with
  | case1 acc pn hlt e hp =>
    intro rs hok
    rw [baiduLoop] at hok ⊢
    simp only [hlt, if_true, hp] at hok ⊢
    split_ifs at hok
    all_goals
      have hr : rs = acc := by simpa using hok.symm
      subst hr
      omega
  | case2 acc pn hlt results hp hz =>
    intro rs hok
    rw [baiduLoop] at hok ⊢
    simp only [hlt, if_true, hp, hz, if_true] at hok ⊢
    have hr : rs = acc := by simpa using hok.symm
    subst hr
    omega
  | case3 acc pn hlt results hp hz hgt =>
    intro rs hok
    rw [baiduLoop] at hok ⊢
    simp only [hlt, if_true, hp, hz, hgt, if_false] at hok ⊢
    have hr : rs = acc ++ results := by simpa using hok.symm
    have hlen : results.length ≤ P := hb pn results hp
    subst hr
    simp only [List.length_append]
    omega
  | case4 acc pn hlt results hp hz acc2 hgt ih =>
    intro rs hok
    rw [baiduLoop] at hok ⊢
    simp only [hlt, if_true, hp, hz, hgt, if_false] at hok ⊢
    have hlen : results.length ≤ P := hb pn results hp
    have h2 : rs.length ≤ (acc ++ results).length +
        (baiduLoop env limit (acc ++ results) (pn + 10)).2 * P := ih rs hok
    simp only [List.length_append] at h2
    have hmul : ((baiduLoop env limit (acc ++ results) (pn + 10)).2 + 1) * P =
        (baiduLoop env limit (acc ++ results) (pn + 10)).2 * P + P := by ring
    show rs.length ≤ acc.length +
        ((baiduLoop env limit (acc ++ results) (pn + 10)).2 + 1) * P
    omega
  | case5 acc pn hnlt =>
    intro rs hok
    rw [baiduLoop] at hok ⊢
    simp only [hnlt, if_false] at hok ⊢
    have hr : rs = acc := by simpa using hok.symm
    subst hr
    omega

/-- Counterexample to C4: the Bing loop advances `pn` before testing
`pn > 5`, so a search with a large limit against pages that keep
producing results performs 6 page fetches - outside the claimed 3-5
page cap. -/
theorem page_cap_cex :
    bingFetches (fun _ => .ok [wResult]) 100 = 6 ∧ ¬ (6 ≤ 5) := by
  constructor
  · simp [bingFetches, bingLoop]
  · decide

/-- C4 amended: for arbitrary (including adversarial) page outcomes the
Bing loop performs at most 6 page fetches and the Baidu loop at most 5,
and when every fetched page carries at most `P` results, a successful
search returns at most 6 x `P` (Bing) respectively 5 x `P` (Baidu)
results. -/
theorem paged_loop_bounded (limit : Int) (P : Nat) :
    (∀ pages : BingPages, bingFetches pages limit ≤ 6) ∧
    (∀ env : BaiduEnv, baiduFetches env limit ≤ 5) ∧
    (∀ pages : BingPages, (∀ pn rs, pages pn = .ok rs → rs.length ≤ P) →
      ∀ rs, bingSearch pages limit = .ok rs → rs.length ≤ 6 * P) ∧
    (∀ env : BaiduEnv,
      (∀ pn rs, (baiduSearchPage env pn).1 = .ok rs → rs.length ≤ P) →
      ∀ rs, baiduSearch env limit = .ok rs → rs.length ≤ 5 * P) := by
  refine ⟨?_, ?_, ?_, ?_⟩
  · intro pages
    have := bingLoop_count_le pages limit [] 0 (by omega)
    unfold bingFetches
    omega
  · intro env
    have := baiduLoop_count_le env limit [] 0 (by omega)
    unfold baiduFetches
    omega
  · intro pages hb rs hok
    unfold bingSearch at hok
    rcases hl : (bingLoop pages limit [] 0).1 with e | allResults
    · rw [hl] at hok
      exact absurd hok (by simp)
    · rw [hl] at hok
      have hr : rs = goTruncate allResults limit := by simpa using hok.symm
      have h1 : rs.length ≤ allResults.length :=
        hr ▸ goTruncate_length_le_self allResults limit
      have h2 := bingLoop_ok_length pages limit P hb [] 0 allResults hl
      have h3 := bingLoop_count_le pages limit [] 0 (by omega)
      have h4 : (bingLoop pages limit [] 0).2 * P ≤ 6 * P :=
        Nat.mul_le_mul_right P (by omega)
      simp only [List.length_nil] at h2
      omega
  · intro env hb rs hok
    unfold baiduSearch at hok
    rcases hl : (baiduLoop env limit [] 0).1 with e | allResults
    · rw [hl] at hok
      exact absurd hok (by simp)
    · rw [hl] at hok
      have hr : rs = goTruncate allResults limit := by simpa using hok.symm
      have h1 : rs.length ≤ allResults.length :=
        hr ▸ goTruncate_length_le_self allResults limit
      have h2 := baiduLoop_ok_length env limit P hb [] 0 allResults hl
      have h3 := baiduLoop_count_le env limit [] 0 (by omega)
      have h4 : (baiduLoop env limit [] 0).2 * P ≤ 5 * P :=
        Nat.mul_le_mul_right P (by omega)
      simp only [List.length_nil] at h2
      omega

/-- Witness for C4 amended: the 2-results-per-page network with limit 3
returns 3 results, within the 6 x 2 bound. -/
theorem paged_loop_bounded_witness :
    ([wResult, wResult, wResult] : List SearchResult).length ≤ 6 * 2 :=
  (paged_loop_bounded 3 2).2.2.1 wPages
    (by
      intro pn rs h
      have hr : rs = [wResult, wResult] := by simpa [wPages] using h.symm
      rw [hr]
      decide)
    [wResult, wResult, wResult] wPages_eval

theorem goContains_append_left (a b sub : String)
    (h : goContains a sub = true) : goContains (a ++ b) sub = true := by
  unfold goContains at h ⊢
  simp only [decide_eq_true_eq] at h ⊢
  have hdata : (a ++ b).toList = a.toList ++ b.toList := by
    simp [String.toList, String.data_append]
  rw [hdata]
  exact h.trans (List.prefix_append _ _).isInfix

theorem baiduChallengeErr_contains (em : String) :
    goContains ("baidu rate limited/captcha required: " ++ em)
      "rate limited" = true :=
  goContains_append_left _ em _ (by decide)

/-- C5: when a Baidu desktop page fetch detects an anti-bot/challenge
page, exactly one mobile fallback is attempted for that page; when the
fallback fails or yields zero results, the search loop stops - with a
non-empty accumulation it returns the accumulated results and no error,
otherwise it returns a rate-limited error and no results. -/
theorem baidu_challenge_fallback (env : BaiduEnv) (limit : Int) (pn : Nat)
    (body : String) (hd : env.desktop pn = .body body)
    (hch : baiduChallenge body = true) :
    (baiduSearchPage env pn).2 = 1 ∧
    (∀ em, baiduSearchPageMobile env pn = .error em →
      ∀ acc : List SearchResult, (acc.length : Int) < limit →
        baiduLoop env limit acc pn =
          (if acc.length > 0 then .ok acc
           else .error ("baidu rate limited: " ++
             ("baidu rate limited/captcha required: " ++ em)), 1)) ∧
    (baiduSearchPageMobile env pn = .ok [] →
      ∀ acc : List SearchResult, (acc.length : Int) < limit →
        baiduLoop env limit acc pn =
          (if acc.length > 0 then .ok acc
           else .error ("baidu rate limited: " ++
             "baidu rate limited: captcha required, please try again later or use a proxy"),
           1)) := by
  refine ⟨?_, ?_, ?_⟩
  · unfold baiduSearchPage
    rw [hd]
    simp only [hch, if_true]
    rcases baiduSearchPageMobile env pn with em | mres
    · rfl
    · by_cases hz : mres.length = 0
      · simp [hz]
      · simp [hz]
  · intro em hm acc hacc
    have hpage : (baiduSearchPage env pn).1 =
        .error ("baidu rate limited/captcha required: " ++ em) := by
      unfold baiduSearchPage
      rw [hd]
      simp [hch, hm]
    rw [baiduLoop]
    simp only [hacc, if_true, hpage]
    have hc := baiduChallengeErr_contains em
    simp [hc]
  · intro hm acc hacc
    have hpage : (baiduSearchPage env pn).1 =
        .error
          "baidu rate limited: captcha required, please try again later or use a proxy" := by
      unfold baiduSearchPage
      rw [hd]
      simp [hch, hm]
    rw [baiduLoop]
    simp only [hacc, if_true, hpage]
    have hc : goContains
        "baidu rate limited: captcha required, please try again later or use a proxy"
        "rate limited" = true := by decide
    simp [hc]

/-- An environment whose desktop and mobile pages both show a captcha
challenge on every fetch. -/
def chEnv : BaiduEnv :=
  { desktop := fun _ => .body "captcha"
    parse := fun _ => []
    mobile := fun _ => .body "captcha"
    parseMobile := fun _ => [] }

/-- Witness for C5: a first-page challenge whose mobile fallback also
shows a challenge makes the Baidu loop return a rate-limited error with
zero results after exactly one desktop fetch. -/
theorem baidu_challenge_fallback_witness :
    baiduLoop chEnv 10 [] 0 =
      (.error ("baidu rate limited: " ++
        ("baidu rate limited/captcha required: " ++ "mobile captcha required")),
       1) := by
  have h := (baidu_challenge_fallback chEnv 10 0 "captcha" rfl (by decide)).2.1
    "mobile captcha required" rfl [] (by decide)
  simpa using h

theorem goTruncDesc_length_le (d : String) : (goTruncDesc d).length ≤ 503 := by
  unfold goTruncDesc
  split
  · rename_i hgt
    rw [String.length_append, List.length_asString, List.length_take]
    have h1 : d.toList.length = d.length := by simp [String.toList]
    have h3 : ("..." : String).length = 3 := rfl
    omega
  · rename_i hle
    omega

theorem goTruncDesc_long_shape (d : String)
    (h : 500 < (goTruncDesc d).length) :
    ∃ d0 : String, goTruncDesc d = d0 ++ "..." ∧ d0.length = 500 := by
  unfold goTruncDesc at h ⊢
  split at h
  · rename_i hgt
    rw [if_pos hgt]
    refine ⟨(d.toList.take 500).asString, rfl, ?_⟩
    rw [List.length_asString, List.length_take]
    have h1 : d.toList.length = d.length := by simp [String.toList]
    omega
  · rename_i hle
    omega

theorem baiduParse_desc_trunc (hostOf : String → Option String)
    (it : BaiduItem) (r : SearchResult)
    (h : baiduParseResultItem hostOf it = some r) :
    ∃ d : String, r.description = goTruncDesc d := by
  unfold baiduParseResultItem at h
  rcases hht : it.h3Text with _ | h3Text
  · rw [hht] at h
    exact absurd h (by simp)
  · rw [hht] at h
    simp only [] at h
    split_ifs at h
    all_goals
      obtain rfl := Option.some.inj h
      exact ⟨_, rfl⟩

theorem sogouParse_desc_trunc (realURLOf : String → String)
    (hostOf : String → Option String) (it : SogouItem) (r : SearchResult)
    (h : sogouParseResultItem realURLOf hostOf it = some r) :
    ∃ d : String, r.description = goTruncDesc d := by
  unfold sogouParseResultItem at h
  simp only [] at h
  split_ifs at h
  all_goals
    obtain rfl := Option.some.inj h
    exact ⟨_, rfl⟩

/-- A 501-character description as an adversarial page could carry. -/
def longDesc : String := (List.replicate 501 'a').asString

/-- A well-formed Bing result node with an over-long description. -/
def longBingItem : BingItem :=
  { titleText := some "t"
    linkHref := some "http://example.com"
    descCandidates := [some longDesc]
    citeText := none }

set_option maxRecDepth 8192 in
/-- Counterexample to C6: `BingEngine.parseResults` applies no
description truncation, so a 501-character extracted description is
emitted unchanged - longer than the 500-character cap and without the
ellipsis marker. -/
theorem description_cap_cex :
    (bingParseItem longBingItem).map SearchResult.description =
      some longDesc ∧
    longDesc.length = 501 ∧
    ¬ (longDesc.length ≤ 500) ∧
    goEndsWith longDesc "..." = false := by
  refine ⟨?_, ?_, ?_, ?_⟩
  · decide
  · decide
  · decide
  · decide

/-- C6 amended: the 500-character description cap with trailing
ellipsis is applied by the Baidu desktop extraction
(`BaiduEngine.parseResultItem`) and the Sogou extraction
(`SogouEngine.parseResultItem`) only - every result they emit has a
description of at most 503 characters, and a description longer than
500 characters is exactly a 500-character prefix plus "...".  The Bing,
DuckDuckGo and Baidu mobile extractions emit the extracted description
with only whitespace trimming (see the counterexample). -/
theorem description_cap_baidu_sogou :
    (∀ (hostOf : String → Option String) (it : BaiduItem) (r : SearchResult),
      baiduParseResultItem hostOf it = some r →
      r.description.length ≤ 503 ∧
      (500 < r.description.length →
        ∃ d0 : String, r.description = d0 ++ "..." ∧ d0.length = 500)) ∧
    (∀ (realURLOf : String → String) (hostOf : String → Option String)
      (it : SogouItem) (r : SearchResult),
      sogouParseResultItem realURLOf hostOf it = some r →
      r.description.length ≤ 503 ∧
      (500 < r.description.length →
        ∃ d0 : String, r.description = d0 ++ "..." ∧ d0.length = 500)) := by
  constructor
  · intro hostOf it r h
    obtain ⟨d, hd⟩ := baiduParse_desc_trunc hostOf it r h
    rw [hd]
    exact ⟨goTruncDesc_length_le d, fun hl => goTruncDesc_long_shape d hl⟩
  · intro realURLOf hostOf it r h
    obtain ⟨d, hd⟩ := sogouParse_desc_trunc realURLOf hostOf it r h
    rw [hd]
    exact ⟨goTruncDesc_length_le d, fun hl => goTruncDesc_long_shape d hl⟩

/-- A well-formed Baidu desktop result node. -/
def wBaiduItem : BaiduItem :=
  { h3Text := some "t"
    h3Link := some "http://example.com"
    anyLink := none
    ariaLabel := some "d"
    cosRowText := none
    abstractText := none
    sourceText := some "src" }

/-- Witness for C6 amended: a concrete Baidu item is emitted with its
short description unchanged, within the cap. -/
theorem description_cap_baidu_sogou_witness :
    ({ title := "t", url := "http://example.com", description := "d",
       source := "src", engine := "baidu" } : SearchResult).description.length
      ≤ 503 :=
  (description_cap_baidu_sogou.1 (fun _ => none) wBaiduItem _ (by decide)).1

/-- C7: a requested engine that is not allowed (or not registered) is
skipped silently - removing it from the request leaves the outcome of
`Manager.Search` unchanged (provided the remaining list is non-empty, so
that the default-engine substitution does not kick in): it contributes
no results and no error, and the remaining engines are still queried. -/
theorem excluded_engine_skipped (cfg : SearchConfig)
    (registry : String → Option EngineModel) (query : String) (limit : Int)
    (name : String) (pre post : List String)
    (hex : isQueried cfg registry name = false)
    (hne : pre ++ post ≠ []) :
    managerSearch cfg registry
      { query := query, limit := limit, engines := pre ++ name :: post } =
    managerSearch cfg registry
      { query := query, limit := limit, engines := pre ++ post } := by
  have hL : effLimit { query := query, limit := limit, engines := pre ++ name :: post } =
      effLimit { query := query, limit := limit, engines := pre ++ post } := rfl
  rw [managerSearch_def, managerSearch_def]
  have h1 : effectiveNames cfg
      { query := query, limit := limit, engines := pre ++ name :: post } =
      pre ++ name :: post := by
    unfold effectiveNames
    have hx : (pre ++ name :: post).length ≠ 0 := by simp
    simp [hx]
  have h2 : effectiveNames cfg
      { query := query, limit := limit, engines := pre ++ post } =
      pre ++ post := by
    unfold effectiveNames
    have hx : ¬ ((pre ++ post).length = 0) := by
      simpa [List.length_eq_zero] using hne
    rw [if_neg hx]
  rw [h1, h2, hL]
  have hfan : searchFanIn cfg registry query
      (effLimit { query := query, limit := limit, engines := pre ++ post })
      (pre ++ name :: post) =
    searchFanIn cfg registry query
      (effLimit { query := query, limit := limit, engines := pre ++ post })
      (pre ++ post) := by
    unfold searchFanIn
    rw [List.foldl_append, List.foldl_append, List.foldl_cons,
      searchStep_skip _ _ _ _ _ _ hex]
  rw [hfan]

/-- A config whose allow-list names only "bing". -/
def bingOnlyCfg : SearchConfig :=
  { allowedEngines := ["bing"], defaultEngine := "bing" }

/-- Witness for C7: requesting the non-allow-listed "baidu" alongside
"bing" gives exactly the outcome of requesting "bing" alone. -/
theorem excluded_engine_skipped_witness :
    managerSearch bingOnlyCfg twoRegistry
      { query := "q", limit := 1, engines := ["bing", "baidu"] } =
    managerSearch bingOnlyCfg twoRegistry
      { query := "q", limit := 1, engines := ["bing"] } :=
  excluded_engine_skipped bingOnlyCfg twoRegistry "q" 1 "baidu" ["bing"] []
    (by decide) (by decide)

/-- A Sogou result node whose only link is a javascript pseudo-URL. -/
def jsItem : SogouItem :=
  { titleCandidates := [some ("link", "javascript:void(0)")]
    resultLink := none
    descCandidates := []
    citeText := none }

/-- Counterexample to C8: `SogouEngine.parseResultItem` re-emits an
href verbatim when it neither starts with "http" nor with "/" or "./",
so a result with a non-http URL is emitted rather than dropped. -/
theorem url_scheme_cex :
    (sogouParseResultItem (fun s => s) (fun _ => none) jsItem).map
      SearchResult.url = some "javascript:void(0)" ∧
    goStartsWith "javascript:void(0)" "http" = false := by
  constructor
  · decide
  · decide

theorem goStartsWith_http_ne_empty (s : String)
    (h : goStartsWith s "http" = true) : s ≠ "" := by
  intro hs
  subst hs
  exact absurd h (by decide)

/-- C8 amended: the Bing, DuckDuckGo and Baidu (desktop and mobile)
extractions emit only results whose url is non-empty and starts with
the literal "http" (the code checks the prefix, not a parsed scheme);
the Sogou extraction completes "/"- and "./"-relative links but can
emit other non-http hrefs verbatim (see the counterexample). -/
theorem emitted_url_http_prefix :
    (∀ (it : BingItem) (r : SearchResult), bingParseItem it = some r →
      r.url ≠ "" ∧ goStartsWith r.url "http" = true) ∧
    (∀ (uddg : String → Option String) (it : DDGItem) (r : SearchResult),
      ddgParseItem uddg it = some r →
      r.url ≠ "" ∧ goStartsWith r.url "http" = true) ∧
    (∀ (hostOf : String → Option String) (it : BaiduItem) (r : SearchResult),
      baiduParseResultItem hostOf it = some r →
      r.url ≠ "" ∧ goStartsWith r.url "http" = true) ∧
    (∀ (hostOf : String → Option String) (it : BaiduMobileItem)
      (r : SearchResult), baiduParseMobileItem hostOf it = some r →
      r.url ≠ "" ∧ goStartsWith r.url "http" = true) := by
  refine ⟨?_, ?_, ?_, ?_⟩
  · intro it r h
    unfold bingParseItem at h
    rcases ht : it.titleText with _ | t <;> rcases hl : it.linkHref with _ | href <;>
      rw [ht, hl] at h <;> simp only [] at h
    · exact absurd h (by simp)
    · exact absurd h (by simp)
    · exact absurd h (by simp)
    · split_ifs at h with hpre
      obtain rfl := Option.some.inj h
      have hp : goStartsWith href "http" = true := by simpa using hpre
      exact ⟨goStartsWith_http_ne_empty _ hp, hp⟩
  · intro uddg it r h
    unfold ddgParseItem at h
    rcases ht : it.titleText with _ | t <;> rcases hl : it.linkHref with _ | href <;>
      rw [ht, hl] at h <;> simp only [] at h
    · exact absurd h (by simp)
    · exact absurd h (by simp)
    · exact absurd h (by simp)
    · split_ifs at h
      all_goals
        obtain rfl := Option.some.inj h
        constructor <;> simp_all
  · intro hostOf it r h
    unfold baiduParseResultItem at h
    rcases hht : it.h3Text with _ | h3Text
    · rw [hht] at h
      exact absurd h (by simp)
    · rw [hht] at h
      simp only [] at h
      split_ifs at h
      all_goals
        obtain rfl := Option.some.inj h
        constructor <;> simp_all
  · intro hostOf it r h
    unfold baiduParseMobileItem at h
    simp only [] at h
    split_ifs at h
    all_goals
      obtain rfl := Option.some.inj h
      constructor <;> simp_all

/-- A well-formed Bing result node and the record it is parsed to. -/
def wBingItem : BingItem :=
  { titleText := some "t"
    linkHref := some "http://example.com"
    descCandidates := []
    citeText := none }

def wBingOut : SearchResult :=
  { title := "t", url := "http://example.com", description := "",
    source := "", engine := "bing" }

/-- Witness for C8 amended: a concrete emitted Bing result has a
non-empty http-prefixed url. -/
theorem emitted_url_http_prefix_witness :
    wBingOut.url ≠ "" ∧ goStartsWith wBingOut.url "http" = true :=
  emitted_url_http_prefix.1 wBingItem wBingOut (by decide)

/-- The uninitialized manager state `GetBrowserManager` creates. -/
def uninit : BrowserState :=
  { initialized := false, proxyURL := "", headless := true }

/-- An environment with no Chrome executable installed. -/
def noChromeEnv : BrowserEnv := { chromePath := none, run := .ok () }

/-- An environment where initialization succeeds. -/
def goodEnv : BrowserEnv :=
  { chromePath := some "/usr/bin/google-chrome", run := .ok () }

/-- Counterexample to C9: when the initialization attempt fails (Chrome
not found), every caller that reaches the mutex re-runs the whole
initialization body - two serialized callers from `Uninitialized`
execute two initialization sequences, not exactly one. -/
theorem browser_init_once_cex :
    (runInitCalls noChromeEnv uninit [("", true), ("", true)]).2.2 = 2 ∧
    ¬ ((2 : Nat) = 1) := by
  constructor
  · rfl
  · decide

theorem runInitCalls_initialized (env : BrowserEnv) :
    ∀ (calls : List (String × Bool)) (st : BrowserState),
      st.initialized = true →
      runInitCalls env st calls =
        (st, List.replicate calls.length (.ok ()), 0) := by
  intro calls
  induction calls with
  | nil => intro st h; rfl
  | cons c rest ih =>
    intro st h
    rcases c with ⟨p, b⟩
    have hinit : browserInitialize env st p b = (st, .ok ()) := by
      unfold browserInitialize
      rw [if_pos h]
    unfold runInitCalls
    simp only [hinit, h, if_true, ih st h]
    rfl

/-- C9 amended: `Initialize` holds the manager mutex for its whole
body, so concurrent callers execute serially; when the environment lets
the initialization attempt succeed, the first caller from
`Uninitialized` runs the only initialization sequence, every caller
returns success, the terminal state is initialized - and from an
initialized state every further call is a no-op returning success.
When an attempt fails, the next caller runs a new attempt (see the
counterexample). -/
theorem browser_init_exactly_once (env : BrowserEnv) (st : BrowserState)
    (calls : List (String × Bool)) (p : String) (b : Bool)
    (hst : st.initialized = false)
    (hch : ∃ cp, env.chromePath = some cp) (hrun : env.run = .ok ()) :
    (runInitCalls env st ((p, b) :: calls)).2.2 = 1 ∧
    (runInitCalls env st ((p, b) :: calls)).2.1 =
      List.replicate (calls.length + 1) (.ok ()) ∧
    (runInitCalls env st ((p, b) :: calls)).1.initialized = true ∧
    (∀ (st2 : BrowserState) (calls2 : List (String × Bool)),
      st2.initialized = true →
      runInitCalls env st2 calls2 =
        (st2, List.replicate calls2.length (.ok ()), 0)) := by
  obtain ⟨cp, hcp⟩ := hch
  have hinit : browserInitialize env st p b =
      ({ st with proxyURL := p, headless := b, initialized := true },
       .ok ()) := by
    unfold browserInitialize
    rw [if_neg (by simp [hst]), hcp, hrun]
  have hdone := runInitCalls_initialized env calls
    { st with proxyURL := p, headless := b, initialized := true } rfl
  refine ⟨?_, ?_, ?_, fun st2 calls2 h2 =>
    runInitCalls_initialized env calls2 st2 h2⟩
  · unfold runInitCalls
    simp only [hinit, hst, hdone]
    rfl
  · unfold runInitCalls
    simp only [hinit, hst, hdone]
    simp [List.replicate_succ]
  · unfold runInitCalls
    simp only [hinit, hst, hdone]

/-- Witness for C9 amended: two serialized callers in a working
environment perform exactly one initialization attempt. -/
theorem browser_init_exactly_once_witness :
    (runInitCalls goodEnv uninit [("p1", true), ("p2", false)]).2.2 = 1 :=
  (browser_init_exactly_once goodEnv uninit [("p2", false)] "p1" true rfl
    ⟨"/usr/bin/google-chrome", rfl⟩ rfl).1

/-- C10: `NewTabContext` holds `bm.mu` and, on the uninitialized path,
calls `bm.Initialize`, whose first statement acquires `bm.mu` again -
the non-reentrant mutex makes the call block forever, so the fallback
that would return a background context with a no-op cancel is
unreachable: the call deadlocks instead (a code bug; the intended
behaviour, modelled by `newTabContextIntended`, would initialize with
no proxy in headless mode and fall back to a background context when
that fails). -/
theorem newTabContext_deadlocks :
    (newTabContext goodEnv uninit 60).2 = TabOutcome.deadlock ∧
    (newTabContext noChromeEnv uninit 60).2 = TabOutcome.deadlock ∧
    (newTabContextIntended noChromeEnv uninit 60).2 = TabOutcome.background ∧
    (newTabContextIntended goodEnv uninit 60).2 = TabOutcome.tab 60 ∧
    (newTabContext goodEnv { uninit with initialized := true } 60).2 =
      TabOutcome.tab 60 := by
  refine ⟨rfl, rfl, rfl, rfl, rfl⟩
